import Mathlib

/-!
Shallow embedding of `src/fairing.rs` of the `rocket_async_compression`
repository: the `CachedCompression` fairing's `on_response` orchestrator,
its process-wide cache of compressed bodies, and the `ErrorBody` failing
body.  Helper functions of `CompressionUtils` and the `Encoding` display
implementation are not part of the provided source tree; they are modelled
from the specification and marked as such in their doc comments.
-/

namespace RocketAsyncCompression

/-- The `CachedEncoding` enumeration of `fairing.rs` (lines 15-19). -/
inductive CachedEncoding : Type
  | gzip
  | brotli
  deriving DecidableEq, Repr

/-- Media types, as the pair of top-level type and subtype; mirrors the
parsed `MediaType` values stored in `EXCLUSIONS`. -/
structure MediaType : Type where
  top : String
  sub : String
  deriving DecidableEq, Repr

/-- The `EXCLUSIONS` list of `fairing.rs` (lines 22-28). -/
def EXCLUSIONS : List MediaType :=
  [⟨"application", "gzip"⟩,
   ⟨"application", "zip"⟩,
   ⟨"image", "*"⟩,
   ⟨"video", "*"⟩,
   ⟨"application", "octet-stream"⟩]

/-- Modelled from the spec: the `Display` implementation of `Encoding` is
outside `src/`; spec section 6 fixes the wire names gzip → "gzip" and
brotli → "br". -/
def wireName : CachedEncoding → String
  | .gzip => "gzip"
  | .brotli => "br"

/-- The `ErrorBody` struct of `fairing.rs` (line 142): at most one captured
I/O error, modelled as its message string. -/
structure ErrorBody : Type where
  err : Option String
  deriving DecidableEq, Repr

/-- The `Poll` type of the asynchronous read interface. -/
inductive Poll (α : Type) : Type
  | ready (a : α)
  | pending
  deriving DecidableEq, Repr

/-- `ErrorBody::poll_read` of `fairing.rs` (lines 145-155): `self.0.take()`
yields the captured error if present (leaving `None` behind), otherwise a
fresh "ErrorBody already read" error; the call always returns
`Poll::Ready(Err(..))` together with the mutated state. -/
def ErrorBody.pollRead (b : ErrorBody) : Poll (Except String Unit) × ErrorBody :=
  match b.err with
  | some e => (Poll.ready (Except.error e), ⟨none⟩)
  | none => (Poll.ready (Except.error "ErrorBody already read"), ⟨none⟩)

/-- Response bodies: the opaque original body, a sized body carrying its
declared length and its bytes, or a streamed `ErrorBody`. -/
inductive Body : Type
  | original (id : Nat)
  | sized (len : Nat) (bytes : List Nat)
  | errorBody (b : ErrorBody)
  deriving DecidableEq, Repr

/-- The slice of an HTTP response that `on_response` reads or writes: the
`Content-Encoding` and `Cache-Control` headers, the declared content type,
and the body. -/
structure Response : Type where
  contentEncoding : Option String
  cacheControl : Option String
  contentType : Option MediaType
  body : Body
  deriving DecidableEq, Repr

/-- The slice of an HTTP request that `on_response` reads: the URI path and
the outcome of `CompressionUtils::accepted_algorithms` (a pair of booleans,
per spec section 4.1). -/
structure Request : Type where
  path : String
  acceptsGzip : Bool
  acceptsBrotli : Bool
  deriving DecidableEq, Repr

/-- Cache keys of `CACHED_FILES` (`fairing.rs` line 29): the pair of the
request path as an owned string and the chosen encoding. -/
abbrev CacheKey : Type := String × CachedEncoding

/-- The `CACHED_FILES` map, modelled as an association list from key to the
cached byte buffer. -/
abbrev Cache : Type := List (CacheKey × List Nat)

/-- `HashMap::get` on the cache: the value bound to the first (unique)
occurrence of the key. -/
def cacheLookup : Cache → CacheKey → Option (List Nat)
  | [], _ => none
  | (k', v) :: rest, k => if k' = k then some v else cacheLookup rest k

/-- `HashMap::insert` on the cache: replaces the binding when the key is
present, otherwise appends a new binding. -/
def cacheInsert : Cache → CacheKey → List Nat → Cache
  | [], k, v => [(k, v)]
  | (k', v') :: rest, k, v =>
      if k' = k then (k, v) :: rest else (k', v') :: cacheInsert rest k v

/-- Modelled from the spec: `CompressionUtils::already_encoded` is outside
`src/`; spec section 4.2 defines it as true iff the response already
declares a `Content-Encoding` header. -/
def alreadyEncoded (resp : Response) : Bool :=
  resp.contentEncoding.isSome

/-- Modelled from the spec: `CompressionUtils.skip_encoding` is outside
`src/`; spec section 4.2 defines it as true iff the declared media type
matches a pattern in the exclusion list (exact type and subtype match, or a
wildcard pattern whose subtype is `*` and whose type matches); a response
with no declared content type is never skipped. -/
def skipEncoding (contentType : Option MediaType) (exclusions : List MediaType) : Bool :=
  match contentType with
  | none => false
  | some ct =>
      exclusions.any fun p =>
        (p.top == ct.top && p.sub == ct.sub) || (p.sub == "*" && p.top == ct.top)

/-- Rust's `str::ends_with`, used on the request path at line 169: true iff
`suff` is a suffix of `s`, compared on the character sequences. -/
def pathEndsWith (s suff : String) : Bool :=
  suff.data.isSuffixOf s.data

/-- The algorithm selection of `fairing.rs` (lines 188-192): brotli when
the client accepts brotli, gzip otherwise. -/
def selectEncoding (acceptsBrotli : Bool) : CachedEncoding :=
  if acceptsBrotli then CachedEncoding.brotli else CachedEncoding.gzip

/-- `Response::set_header` for the `Content-Encoding` header. -/
def setContentEncoding (resp : Response) (v : String) : Response :=
  { resp with contentEncoding := some v }

/-- `Response::set_header` for the `Cache-Control` header. -/
def setCacheControl (resp : Response) (v : String) : Response :=
  { resp with cacheControl := some v }

/-- `Response::set_sized_body(bytes.len(), Cursor::new(bytes))`. -/
def setSizedBody (resp : Response) (bytes : List Nat) : Response :=
  { resp with body := Body.sized bytes.length bytes }

/-- The result of one `on_response` pass: the mutated response, the cache
after the pass, and whether `CompressionUtils::compress_body` was invoked. -/
structure OnResponseResult : Type where
  resp : Response
  cache : Cache
  compressInvoked : Bool
  deriving DecidableEq, Repr

/-- `CachedCompression::on_response` of `fairing.rs` (lines 167-243),
translated statement by statement.  The compression adapter (external per
spec section 6) is passed in as `compress`, mapping the selected encoding
to the compressed bytes or an error message for the taken original body. -/
def onResponse (cachedPathEndings : List String) (req : Request) (resp : Response)
    (cache : Cache) (compress : CachedEncoding → Except String (List Nat)) :
    OnResponseResult :=
  let path := req.path
  let cacheCompressedResponses := cachedPathEndings.any fun s => pathEndsWith path s
  if !cacheCompressedResponses then ⟨resp, cache, false⟩
  else if !req.acceptsGzip && !req.acceptsBrotli then ⟨resp, cache, false⟩
  else if alreadyEncoded resp then ⟨resp, cache, false⟩
  else if skipEncoding resp.contentType EXCLUSIONS then ⟨resp, cache, false⟩
  else
    let desiredEncoding := selectEncoding req.acceptsBrotli
    let cachedBody :=
      if cacheCompressedResponses && (req.acceptsGzip || req.acceptsBrotli) then
        cacheLookup cache (path, desiredEncoding)
      else none
    match cachedBody with
    | some body =>
        ⟨setSizedBody (setContentEncoding resp (wireName desiredEncoding)) body,
         cache, false⟩
    | none =>
        match compress desiredEncoding with
        | .error e =>
            ⟨{ resp with body := Body.errorBody ⟨some e⟩ }, cache, true⟩
        | .ok compressedBody =>
            ⟨setSizedBody
               (setCacheControl
                 (setContentEncoding resp (wireName desiredEncoding))
                 "max-age=31536000")
               compressedBody,
             cacheInsert cache (path, desiredEncoding) compressedBody, true⟩

/-! ### Helper lemmas on the cache and the orchestrator branches -/

theorem cacheLookup_cacheInsert_self (c : Cache) (k : CacheKey) (v : List Nat) :
    cacheLookup (cacheInsert c k v) k = some v := by
  induction c with
  | nil => simp [cacheInsert, cacheLookup]
  | cons hd tl ih =>
      obtain ⟨k', v'⟩ := hd
      by_cases h : k' = k
      · simp [cacheInsert, cacheLookup, h]
      · simp [cacheInsert, cacheLookup, h, ih]

theorem cacheLookup_cacheInsert_ne (c : Cache) (k k' : CacheKey) (v : List Nat)
    (h : k' ≠ k) :
    cacheLookup (cacheInsert c k v) k' = cacheLookup c k' := by
  induction c with
  | nil => simp [cacheInsert, cacheLookup, Ne.symm h]
  | cons hd tl ih =>
      obtain ⟨k0, v0⟩ := hd
      by_cases h0 : k0 = k
      · subst h0
        simp [cacheInsert, cacheLookup, Ne.symm h]
      · simp [cacheInsert, cacheLookup, h0, ih]

theorem onResponse_passthrough (cpe : List String) (req : Request) (resp : Response)
    (cache : Cache) (compress : CachedEncoding → Except String (List Nat))
    (hgate : (cpe.any fun s => pathEndsWith req.path s) = false ∨
      (req.acceptsGzip = false ∧ req.acceptsBrotli = false) ∨
      alreadyEncoded resp = true ∨
      skipEncoding resp.contentType EXCLUSIONS = true) :
    onResponse cpe req resp cache compress = ⟨resp, cache, false⟩ := by
  cases hp : (cpe.any fun s => pathEndsWith req.path s) <;>
    cases hg : req.acceptsGzip <;> cases hb : req.acceptsBrotli <;>
    rcases hgate with h | ⟨h1, h2⟩ | h | h <;>
    simp_all [onResponse]

theorem onResponse_hit (cpe : List String) (req : Request) (resp : Response)
    (cache : Cache) (compress : CachedEncoding → Except String (List Nat)) (b : List Nat)
    (hpath : (cpe.any fun s => pathEndsWith req.path s) = true)
    (hacc : (req.acceptsGzip || req.acceptsBrotli) = true)
    (henc : alreadyEncoded resp = false)
    (hskip : skipEncoding resp.contentType EXCLUSIONS = false)
    (hhit : cacheLookup cache (req.path, selectEncoding req.acceptsBrotli) = some b) :
    onResponse cpe req resp cache compress =
      ⟨setSizedBody (setContentEncoding resp (wireName (selectEncoding req.acceptsBrotli))) b,
       cache, false⟩ := by
  cases hg : req.acceptsGzip <;> cases hb : req.acceptsBrotli <;>
    simp_all [onResponse]

theorem onResponse_miss_ok (cpe : List String) (req : Request) (resp : Response)
    (cache : Cache) (compress : CachedEncoding → Except String (List Nat)) (bytes : List Nat)
    (hpath : (cpe.any fun s => pathEndsWith req.path s) = true)
    (hacc : (req.acceptsGzip || req.acceptsBrotli) = true)
    (henc : alreadyEncoded resp = false)
    (hskip : skipEncoding resp.contentType EXCLUSIONS = false)
    (hmiss : cacheLookup cache (req.path, selectEncoding req.acceptsBrotli) = none)
    (hok : compress (selectEncoding req.acceptsBrotli) = Except.ok bytes) :
    onResponse cpe req resp cache compress =
      ⟨setSizedBody
         (setCacheControl
           (setContentEncoding resp (wireName (selectEncoding req.acceptsBrotli)))
           "max-age=31536000")
         bytes,
       cacheInsert cache (req.path, selectEncoding req.acceptsBrotli) bytes, true⟩ := by
  cases hg : req.acceptsGzip <;> cases hb : req.acceptsBrotli <;>
    simp_all [onResponse]

theorem onResponse_miss_err (cpe : List String) (req : Request) (resp : Response)
    (cache : Cache) (compress : CachedEncoding → Except String (List Nat)) (e : String)
    (hpath : (cpe.any fun s => pathEndsWith req.path s) = true)
    (hacc : (req.acceptsGzip || req.acceptsBrotli) = true)
    (henc : alreadyEncoded resp = false)
    (hskip : skipEncoding resp.contentType EXCLUSIONS = false)
    (hmiss : cacheLookup cache (req.path, selectEncoding req.acceptsBrotli) = none)
    (herr : compress (selectEncoding req.acceptsBrotli) = Except.error e) :
    onResponse cpe req resp cache compress =
      ⟨{ resp with body := Body.errorBody ⟨some e⟩ }, cache, true⟩ := by
  cases hg : req.acceptsGzip <;> cases hb : req.acceptsBrotli <;>
    simp_all [onResponse]

/-! ### Claim theorems -/

/-- C1: for every response passing all four gates whose key (path, algorithm)
is absent from the cache, when compression succeeds the orchestrator sets
`Content-Encoding` to the chosen algorithm's wire name, sets `Cache-Control`
to "max-age=31536000", sets the body to the compressed bytes as a sized body
whose declared length equals the buffer's length, and inserts those bytes
into the cache under (path, algorithm). -/
theorem C1_cache_miss_success (cpe : List String) (req : Request) (resp : Response)
    (cache : Cache) (compress : CachedEncoding → Except String (List Nat)) (bytes : List Nat)
    (hpath : (cpe.any fun s => pathEndsWith req.path s) = true)
    (hacc : (req.acceptsGzip || req.acceptsBrotli) = true)
    (henc : alreadyEncoded resp = false)
    (hskip : skipEncoding resp.contentType EXCLUSIONS = false)
    (hmiss : cacheLookup cache (req.path, selectEncoding req.acceptsBrotli) = none)
    (hok : compress (selectEncoding req.acceptsBrotli) = Except.ok bytes) :
    (onResponse cpe req resp cache compress).resp.contentEncoding =
      some (wireName (selectEncoding req.acceptsBrotli)) ∧
    (onResponse cpe req resp cache compress).resp.cacheControl = some "max-age=31536000" ∧
    (onResponse cpe req resp cache compress).resp.body = Body.sized bytes.length bytes ∧
    cacheLookup (onResponse cpe req resp cache compress).cache
      (req.path, selectEncoding req.acceptsBrotli) = some bytes := by
  rw [onResponse_miss_ok cpe req resp cache compress bytes hpath hacc henc hskip hmiss hok]
  exact ⟨rfl, rfl, rfl, cacheLookup_cacheInsert_self _ _ _⟩

/-- Witness for C1 at a concrete input: cacheable suffix "main.dart.js",
brotli-only client, javascript content type, empty cache, adapter returning
three bytes. -/
theorem C1_cache_miss_success_witness :
    (onResponse ["main.dart.js"] ⟨"/assets/main.dart.js", false, true⟩
      ⟨none, none, some ⟨"application", "javascript"⟩, Body.original 0⟩ []
      (fun _ => Except.ok [1, 2, 3])).resp.contentEncoding = some "br" ∧
    (onResponse ["main.dart.js"] ⟨"/assets/main.dart.js", false, true⟩
      ⟨none, none, some ⟨"application", "javascript"⟩, Body.original 0⟩ []
      (fun _ => Except.ok [1, 2, 3])).resp.cacheControl = some "max-age=31536000" ∧
    (onResponse ["main.dart.js"] ⟨"/assets/main.dart.js", false, true⟩
      ⟨none, none, some ⟨"application", "javascript"⟩, Body.original 0⟩ []
      (fun _ => Except.ok [1, 2, 3])).resp.body = Body.sized 3 [1, 2, 3] ∧
    cacheLookup (onResponse ["main.dart.js"] ⟨"/assets/main.dart.js", false, true⟩
      ⟨none, none, some ⟨"application", "javascript"⟩, Body.original 0⟩ []
      (fun _ => Except.ok [1, 2, 3])).cache
      ("/assets/main.dart.js", CachedEncoding.brotli) = some [1, 2, 3] :=
  C1_cache_miss_success ["main.dart.js"] ⟨"/assets/main.dart.js", false, true⟩
    ⟨none, none, some ⟨"application", "javascript"⟩, Body.original 0⟩ []
    (fun _ => Except.ok [1, 2, 3]) [1, 2, 3]
    (by decide) (by decide) (by decide) (by decide) (by decide) rfl

/-- C2: on a cache hit the orchestrator sets `Content-Encoding` to the wire
name, replaces the body with the cached buffer (declared length = buffer
length), leaves `Cache-Control` untouched, leaves the cache unchanged, and
does not invoke the adapter; consequently a second request for the same path
with the same accepted encodings returns the exact bytes computed by the
first request, without recompression. -/
theorem C2_cache_hit_no_recompression (cpe : List String) (req : Request) (resp : Response)
    (cache : Cache) (compress : CachedEncoding → Except String (List Nat)) (b : List Nat)
    (hpath : (cpe.any fun s => pathEndsWith req.path s) = true)
    (hacc : (req.acceptsGzip || req.acceptsBrotli) = true)
    (henc : alreadyEncoded resp = false)
    (hskip : skipEncoding resp.contentType EXCLUSIONS = false) :
    (cacheLookup cache (req.path, selectEncoding req.acceptsBrotli) = some b →
      onResponse cpe req resp cache compress =
        ⟨setSizedBody (setContentEncoding resp (wireName (selectEncoding req.acceptsBrotli))) b,
         cache, false⟩ ∧
      (onResponse cpe req resp cache compress).resp.cacheControl = resp.cacheControl ∧
      (onResponse cpe req resp cache compress).compressInvoked = false) ∧
    (∀ (bytes : List Nat) (resp2 : Response)
        (compress2 : CachedEncoding → Except String (List Nat)),
      cacheLookup cache (req.path, selectEncoding req.acceptsBrotli) = none →
      compress (selectEncoding req.acceptsBrotli) = Except.ok bytes →
      alreadyEncoded resp2 = false →
      skipEncoding resp2.contentType EXCLUSIONS = false →
      (onResponse cpe req resp cache compress).resp.body = Body.sized bytes.length bytes ∧
      onResponse cpe req resp2 (onResponse cpe req resp cache compress).cache compress2 =
        ⟨setSizedBody (setContentEncoding resp2 (wireName (selectEncoding req.acceptsBrotli)))
           bytes,
         (onResponse cpe req resp cache compress).cache, false⟩ ∧
      (onResponse cpe req resp2 (onResponse cpe req resp cache compress).cache
        compress2).resp.cacheControl = resp2.cacheControl) := by
  constructor
  · intro hhit
    rw [onResponse_hit cpe req resp cache compress b hpath hacc henc hskip hhit]
    exact ⟨rfl, rfl, rfl⟩
  · intro bytes resp2 compress2 hmiss hok henc2 hskip2
    have h1 := onResponse_miss_ok cpe req resp cache compress bytes hpath hacc henc hskip hmiss hok
    have e1 : (onResponse cpe req resp cache compress).cache =
        cacheInsert cache (req.path, selectEncoding req.acceptsBrotli) bytes := by
      rw [h1]
    have hhit2 : cacheLookup
        (cacheInsert cache (req.path, selectEncoding req.acceptsBrotli) bytes)
        (req.path, selectEncoding req.acceptsBrotli) = some bytes :=
      cacheLookup_cacheInsert_self _ _ _
    have h2 := onResponse_hit cpe req resp2
      (cacheInsert cache (req.path, selectEncoding req.acceptsBrotli) bytes)
      compress2 bytes hpath hacc henc2 hskip2 hhit2
    refine ⟨by rw [h1]; rfl, ?_, ?_⟩
    · rw [e1, h2]
    · rw [e1, h2]; rfl

/-- Witness for C2 at a concrete input: a cache holding two bytes for
("/a.js", brotli) is served back verbatim with `Content-Encoding: br`, no
`Cache-Control`, an unchanged cache, and no adapter call. -/
theorem C2_cache_hit_no_recompression_witness :
    onResponse ["js"] ⟨"/a.js", false, true⟩ ⟨none, none, none, Body.original 0⟩
      [(("/a.js", CachedEncoding.brotli), [5, 6])] (fun _ => Except.ok [9]) =
      ⟨⟨some "br", none, none, Body.sized 2 [5, 6]⟩,
       [(("/a.js", CachedEncoding.brotli), [5, 6])], false⟩ :=
  ((C2_cache_hit_no_recompression ["js"] ⟨"/a.js", false, true⟩
      ⟨none, none, none, Body.original 0⟩
      [(("/a.js", CachedEncoding.brotli), [5, 6])] (fun _ => Except.ok [9]) [5, 6]
      (by decide) (by decide) (by decide) (by decide)).1 (by decide)).1

/-- C3: on compression failure the orchestrator sets neither success header,
writes no cache entry, and replaces the body with an `ErrorBody` whose first
read fails with the captured error and whose every later read fails with the
fixed "ErrorBody already read" error. -/
theorem C3_compression_failure (cpe : List String) (req : Request) (resp : Response)
    (cache : Cache) (compress : CachedEncoding → Except String (List Nat)) (e : String)
    (hpath : (cpe.any fun s => pathEndsWith req.path s) = true)
    (hacc : (req.acceptsGzip || req.acceptsBrotli) = true)
    (henc : alreadyEncoded resp = false)
    (hskip : skipEncoding resp.contentType EXCLUSIONS = false)
    (hmiss : cacheLookup cache (req.path, selectEncoding req.acceptsBrotli) = none)
    (herr : compress (selectEncoding req.acceptsBrotli) = Except.error e) :
    (onResponse cpe req resp cache compress).resp.contentEncoding = none ∧
    (onResponse cpe req resp cache compress).resp.cacheControl = resp.cacheControl ∧
    (onResponse cpe req resp cache compress).cache = cache ∧
    (onResponse cpe req resp cache compress).resp.body = Body.errorBody ⟨some e⟩ ∧
    ErrorBody.pollRead ⟨some e⟩ = (Poll.ready (Except.error e), ⟨none⟩) ∧
    ErrorBody.pollRead ⟨none⟩ =
      (Poll.ready (Except.error "ErrorBody already read"), ⟨none⟩) := by
  rw [onResponse_miss_err cpe req resp cache compress e hpath hacc henc hskip hmiss herr]
  refine ⟨?_, rfl, rfl, rfl, rfl, rfl⟩
  cases hce : resp.contentEncoding with
  | none => simp [hce]
  | some v => simp [alreadyEncoded, hce] at henc

/-- Witness for C3 at a concrete input: the adapter fails with message
"boom"; no headers are set, the cache stays empty, and the two reads of the
resulting `ErrorBody` fail as stated. -/
theorem C3_compression_failure_witness :
    (onResponse ["js"] ⟨"/app.js", true, false⟩
      ⟨none, none, none, Body.original 0⟩ []
      (fun _ => Except.error "boom")).resp.contentEncoding = none ∧
    (onResponse ["js"] ⟨"/app.js", true, false⟩
      ⟨none, none, none, Body.original 0⟩ []
      (fun _ => Except.error "boom")).resp.cacheControl = none ∧
    (onResponse ["js"] ⟨"/app.js", true, false⟩
      ⟨none, none, none, Body.original 0⟩ []
      (fun _ => Except.error "boom")).cache = [] ∧
    (onResponse ["js"] ⟨"/app.js", true, false⟩
      ⟨none, none, none, Body.original 0⟩ []
      (fun _ => Except.error "boom")).resp.body = Body.errorBody ⟨some "boom"⟩ ∧
    ErrorBody.pollRead ⟨some "boom"⟩ = (Poll.ready (Except.error "boom"), ⟨none⟩) ∧
    ErrorBody.pollRead ⟨none⟩ =
      (Poll.ready (Except.error "ErrorBody already read"), ⟨none⟩) :=
  C3_compression_failure ["js"] ⟨"/app.js", true, false⟩
    ⟨none, none, none, Body.original 0⟩ [] (fun _ => Except.error "boom") "boom"
    (by decide) (by decide) (by decide) (by decide) (by decide) rfl

/-- C4: the algorithm selection of lines 188-192 picks brotli whenever the
client accepts brotli (so a client accepting both gets brotli), and picks
gzip only when brotli is not accepted. -/
theorem C4_brotli_precedence :
    (∀ br : Bool, br = true → selectEncoding br = CachedEncoding.brotli) ∧
    (∀ br : Bool, selectEncoding br = CachedEncoding.gzip → br = false) := by
  decide

/-- Witness for C4: a client accepting brotli gets brotli selected, and from
a gzip selection the theorem recovers that brotli was not accepted. -/
theorem C4_brotli_precedence_witness :
    selectEncoding true = CachedEncoding.brotli ∧ false = false :=
  ⟨C4_brotli_precedence.1 true rfl, C4_brotli_precedence.2 false (by decide)⟩

/-- C5: when any of the four gates fails — path matches no configured
suffix, client accepts neither encoding, response already encoded, or media
type excluded — the orchestrator leaves the response and the cache
untouched. -/
theorem C5_gate_passthrough (cpe : List String) (req : Request) (resp : Response)
    (cache : Cache) (compress : CachedEncoding → Except String (List Nat))
    (hgate : (cpe.any fun s => pathEndsWith req.path s) = false ∨
      (req.acceptsGzip = false ∧ req.acceptsBrotli = false) ∨
      alreadyEncoded resp = true ∨
      skipEncoding resp.contentType EXCLUSIONS = true) :
    onResponse cpe req resp cache compress = ⟨resp, cache, false⟩ :=
  onResponse_passthrough cpe req resp cache compress hgate

/-- Witness for C5 at a concrete input: the path "/style.css" ends with no
configured suffix, so the response and cache come back unchanged. -/
theorem C5_gate_passthrough_witness :
    onResponse ["js"] ⟨"/style.css", true, true⟩
      ⟨none, none, none, Body.original 7⟩ [] (fun _ => Except.ok []) =
      ⟨⟨none, none, none, Body.original 7⟩, [], false⟩ :=
  C5_gate_passthrough ["js"] ⟨"/style.css", true, true⟩
    ⟨none, none, none, Body.original 7⟩ [] (fun _ => Except.ok [])
    (Or.inl (by decide))

/-- C6: cache keys are the pair (path, algorithm) and are equal iff both
components are; serving a path under gzip-only acceptance and later under
brotli-only acceptance creates two separate entries — the second request
misses, invokes the adapter, and both entries coexist afterwards. -/
theorem C6_cache_key_separation (p : String) (cpe : List String)
    (resp1 resp2 : Response) (cache : Cache)
    (compress1 compress2 : CachedEncoding → Except String (List Nat)) (b1 b2 : List Nat)
    (hpath : (cpe.any fun s => pathEndsWith p s) = true)
    (henc1 : alreadyEncoded resp1 = false)
    (hskip1 : skipEncoding resp1.contentType EXCLUSIONS = false)
    (henc2 : alreadyEncoded resp2 = false)
    (hskip2 : skipEncoding resp2.contentType EXCLUSIONS = false)
    (hmiss1 : cacheLookup cache (p, CachedEncoding.gzip) = none)
    (hmiss2 : cacheLookup cache (p, CachedEncoding.brotli) = none)
    (hok1 : compress1 CachedEncoding.gzip = Except.ok b1)
    (hok2 : compress2 CachedEncoding.brotli = Except.ok b2) :
    (∀ (p1 p2 : String) (e1 e2 : CachedEncoding),
      (((p1, e1) : CacheKey) = ((p2, e2) : CacheKey)) ↔ (p1 = p2 ∧ e1 = e2)) ∧
    cacheLookup (onResponse cpe ⟨p, true, false⟩ resp1 cache compress1).cache
      (p, CachedEncoding.gzip) = some b1 ∧
    cacheLookup (onResponse cpe ⟨p, true, false⟩ resp1 cache compress1).cache
      (p, CachedEncoding.brotli) = none ∧
    (onResponse cpe ⟨p, false, true⟩ resp2
      (onResponse cpe ⟨p, true, false⟩ resp1 cache compress1).cache
      compress2).compressInvoked = true ∧
    cacheLookup (onResponse cpe ⟨p, false, true⟩ resp2
      (onResponse cpe ⟨p, true, false⟩ resp1 cache compress1).cache compress2).cache
      (p, CachedEncoding.brotli) = some b2 ∧
    cacheLookup (onResponse cpe ⟨p, false, true⟩ resp2
      (onResponse cpe ⟨p, true, false⟩ resp1 cache compress1).cache compress2).cache
      (p, CachedEncoding.gzip) = some b1 := by
  have h1 := onResponse_miss_ok cpe ⟨p, true, false⟩ resp1 cache compress1 b1
    hpath rfl henc1 hskip1 hmiss1 hok1
  have e1 : (onResponse cpe ⟨p, true, false⟩ resp1 cache compress1).cache =
      cacheInsert cache (p, CachedEncoding.gzip) b1 := by
    rw [h1]; rfl
  have hmissB : cacheLookup (cacheInsert cache (p, CachedEncoding.gzip) b1)
      (p, CachedEncoding.brotli) = none :=
    (cacheLookup_cacheInsert_ne cache (p, CachedEncoding.gzip) (p, CachedEncoding.brotli)
      b1 (by simp)).trans hmiss2
  have h2 := onResponse_miss_ok cpe ⟨p, false, true⟩ resp2
    (cacheInsert cache (p, CachedEncoding.gzip) b1) compress2 b2
    hpath rfl henc2 hskip2 hmissB hok2
  have e2 : (onResponse cpe ⟨p, false, true⟩ resp2
      (cacheInsert cache (p, CachedEncoding.gzip) b1) compress2).cache =
      cacheInsert (cacheInsert cache (p, CachedEncoding.gzip) b1)
        (p, CachedEncoding.brotli) b2 := by
    rw [h2]; rfl
  have e2i : (onResponse cpe ⟨p, false, true⟩ resp2
      (cacheInsert cache (p, CachedEncoding.gzip) b1) compress2).compressInvoked = true := by
    rw [h2]
  refine ⟨fun p1 p2 e1' e2' => Prod.ext_iff, ?_, ?_, ?_, ?_, ?_⟩
  · rw [e1]
    exact cacheLookup_cacheInsert_self _ _ _
  · rw [e1]
    exact hmissB
  · rw [e1, e2i]
  · rw [e1, e2]
    exact cacheLookup_cacheInsert_self _ _ _
  · rw [e1, e2]
    exact (cacheLookup_cacheInsert_ne _ _ _ _ (by simp)).trans
      (cacheLookup_cacheInsert_self _ _ _)

/-- Witness for C6 at a concrete input: the path "/a.js" served gzip-only
then brotli-only leaves two distinct cache entries. -/
theorem C6_cache_key_separation_witness :
    cacheLookup (onResponse ["js"] ⟨"/a.js", false, true⟩
      ⟨none, none, none, Body.original 0⟩
      (onResponse ["js"] ⟨"/a.js", true, false⟩ ⟨none, none, none, Body.original 0⟩ []
        (fun _ => Except.ok [1])).cache (fun _ => Except.ok [2])).cache
      ("/a.js", CachedEncoding.brotli) = some [2] ∧
    cacheLookup (onResponse ["js"] ⟨"/a.js", false, true⟩
      ⟨none, none, none, Body.original 0⟩
      (onResponse ["js"] ⟨"/a.js", true, false⟩ ⟨none, none, none, Body.original 0⟩ []
        (fun _ => Except.ok [1])).cache (fun _ => Except.ok [2])).cache
      ("/a.js", CachedEncoding.gzip) = some [1] :=
  ⟨(C6_cache_key_separation "/a.js" ["js"] ⟨none, none, none, Body.original 0⟩
      ⟨none, none, none, Body.original 0⟩ [] (fun _ => Except.ok [1])
      (fun _ => Except.ok [2]) [1] [2]
      (by decide) rfl rfl rfl rfl rfl rfl rfl rfl).2.2.2.2.1,
   (C6_cache_key_separation "/a.js" ["js"] ⟨none, none, none, Body.original 0⟩
      ⟨none, none, none, Body.original 0⟩ [] (fun _ => Except.ok [1])
      (fun _ => Except.ok [2]) [1] [2]
      (by decide) rfl rfl rfl rfl rfl rfl rfl rfl).2.2.2.2.2⟩

/-- C7: the cache is append-only across a pass of the orchestrator: every
key-value binding present before the pass is still bound to the same value
afterwards — the pass inserts only under a key that was absent. -/
theorem C7_cache_append_only (cpe : List String) (req : Request) (resp : Response)
    (cache : Cache) (compress : CachedEncoding → Except String (List Nat))
    (k : CacheKey) (v : List Nat)
    (hk : cacheLookup cache k = some v) :
    cacheLookup (onResponse cpe req resp cache compress).cache k = some v := by
  by_cases hp : (cpe.any fun s => pathEndsWith req.path s) = true
  · by_cases hacc : (req.acceptsGzip || req.acceptsBrotli) = true
    · by_cases he : alreadyEncoded resp = true
      · rw [onResponse_passthrough cpe req resp cache compress (Or.inr (Or.inr (Or.inl he)))]
        exact hk
      · have he' : alreadyEncoded resp = false := by simpa using he
        by_cases hs : skipEncoding resp.contentType EXCLUSIONS = true
        · rw [onResponse_passthrough cpe req resp cache compress
            (Or.inr (Or.inr (Or.inr hs)))]
          exact hk
        · have hs' : skipEncoding resp.contentType EXCLUSIONS = false := by simpa using hs
          cases hl : cacheLookup cache (req.path, selectEncoding req.acceptsBrotli) with
          | some bb =>
              rw [onResponse_hit cpe req resp cache compress bb hp hacc he' hs' hl]
              exact hk
          | none =>
              cases hc : compress (selectEncoding req.acceptsBrotli) with
              | error e =>
                  rw [onResponse_miss_err cpe req resp cache compress e hp hacc he' hs' hl hc]
                  exact hk
              | ok bytes =>
                  rw [onResponse_miss_ok cpe req resp cache compress bytes hp hacc he' hs' hl hc]
                  have hne : k ≠ (req.path, selectEncoding req.acceptsBrotli) := by
                    intro hkey
                    rw [hkey] at hk
                    rw [hk] at hl
                    exact Option.noConfusion hl
                  exact (cacheLookup_cacheInsert_ne cache
                    (req.path, selectEncoding req.acceptsBrotli) k bytes hne).trans hk
    · have hgb : req.acceptsGzip = false ∧ req.acceptsBrotli = false := by
        cases hgv : req.acceptsGzip <;> cases hbv : req.acceptsBrotli <;> simp_all
      rw [onResponse_passthrough cpe req resp cache compress (Or.inr (Or.inl hgb))]
      exact hk
  · have hp' : (cpe.any fun s => pathEndsWith req.path s) = false := by simpa using hp
    rw [onResponse_passthrough cpe req resp cache compress (Or.inl hp')]
    exact hk

/-- Witness for C7 at a concrete input: a pass that inserts a new entry for
("/b.js", brotli) leaves the pre-existing ("/a.js", gzip) binding intact. -/
theorem C7_cache_append_only_witness :
    cacheLookup (onResponse ["js"] ⟨"/b.js", false, true⟩
      ⟨none, none, none, Body.original 0⟩
      [(("/a.js", CachedEncoding.gzip), [7])] (fun _ => Except.ok [1])).cache
      ("/a.js", CachedEncoding.gzip) = some [7] :=
  C7_cache_append_only ["js"] ⟨"/b.js", false, true⟩ ⟨none, none, none, Body.original 0⟩
    [(("/a.js", CachedEncoding.gzip), [7])] (fun _ => Except.ok [1])
    ("/a.js", CachedEncoding.gzip) [7] (by decide)

/-- C8: a response with no declared content type is never skipped by the
exclusion gate, whatever the exclusion list — in particular for the
configured `EXCLUSIONS` list. -/
theorem C8_no_content_type_never_skipped :
    (∀ exclusions : List MediaType, skipEncoding none exclusions = false) ∧
    skipEncoding none EXCLUSIONS = false :=
  ⟨fun _ => rfl, rfl⟩

/-- C9: every call to `ErrorBody.pollRead` returns `Poll.ready` with an
error — never a successful read and never `Poll.pending`: the captured error
on the first call, the fixed "ErrorBody already read" error on every later
call, and the state after any call holds no captured error. -/
theorem C9_pollRead_always_fails :
    ∀ b : ErrorBody,
      (∀ e, b.err = some e →
        ErrorBody.pollRead b = (Poll.ready (Except.error e), ⟨none⟩)) ∧
      (b.err = none →
        ErrorBody.pollRead b =
          (Poll.ready (Except.error "ErrorBody already read"), ⟨none⟩)) ∧
      (∃ e, (ErrorBody.pollRead b).1 = Poll.ready (Except.error e)) ∧
      (ErrorBody.pollRead b).1 ≠ Poll.pending ∧
      ∀ u, (ErrorBody.pollRead b).1 ≠ Poll.ready (Except.ok u) := by
  rintro ⟨_ | e⟩ <;>
    simp [ErrorBody.pollRead]

/-- Witness for C9 at concrete states: a fresh `ErrorBody` carrying "boom"
and an already-consumed one. -/
theorem C9_pollRead_always_fails_witness :
    ErrorBody.pollRead ⟨some "boom"⟩ = (Poll.ready (Except.error "boom"), ⟨none⟩) ∧
    ErrorBody.pollRead ⟨none⟩ =
      (Poll.ready (Except.error "ErrorBody already read"), ⟨none⟩) :=
  ⟨(C9_pollRead_always_fails ⟨some "boom"⟩).1 "boom" rfl,
   (C9_pollRead_always_fails ⟨none⟩).2.1 rfl⟩

/-- C10: after a successful cache-miss compression, the bytes inserted into
the cache under (path, algorithm) are the very same list as the bytes set as
the response body, so the served body and the created cache entry agree
exactly. -/
theorem C10_cache_entry_matches_body (cpe : List String) (req : Request) (resp : Response)
    (cache : Cache) (compress : CachedEncoding → Except String (List Nat)) (bytes : List Nat)
    (hpath : (cpe.any fun s => pathEndsWith req.path s) = true)
    (hacc : (req.acceptsGzip || req.acceptsBrotli) = true)
    (henc : alreadyEncoded resp = false)
    (hskip : skipEncoding resp.contentType EXCLUSIONS = false)
    (hmiss : cacheLookup cache (req.path, selectEncoding req.acceptsBrotli) = none)
    (hok : compress (selectEncoding req.acceptsBrotli) = Except.ok bytes) :
    (onResponse cpe req resp cache compress).resp.body = Body.sized bytes.length bytes ∧
    (onResponse cpe req resp cache compress).cache =
      cacheInsert cache (req.path, selectEncoding req.acceptsBrotli) bytes ∧
    cacheLookup (onResponse cpe req resp cache compress).cache
      (req.path, selectEncoding req.acceptsBrotli) = some bytes := by
  rw [onResponse_miss_ok cpe req resp cache compress bytes hpath hacc henc hskip hmiss hok]
  exact ⟨rfl, rfl, cacheLookup_cacheInsert_self _ _ _⟩

/-- Witness for C10 at a concrete input: the two bytes produced by the
adapter appear both as the body and as the cached entry. -/
theorem C10_cache_entry_matches_body_witness :
    (onResponse [".otf"] ⟨"/font.otf", true, false⟩
      ⟨none, none, none, Body.original 1⟩ []
      (fun _ => Except.ok [9, 8])).resp.body = Body.sized 2 [9, 8] ∧
    (onResponse [".otf"] ⟨"/font.otf", true, false⟩
      ⟨none, none, none, Body.original 1⟩ []
      (fun _ => Except.ok [9, 8])).cache =
      cacheInsert [] ("/font.otf", CachedEncoding.gzip) [9, 8] ∧
    cacheLookup (onResponse [".otf"] ⟨"/font.otf", true, false⟩
      ⟨none, none, none, Body.original 1⟩ []
      (fun _ => Except.ok [9, 8])).cache ("/font.otf", CachedEncoding.gzip) =
      some [9, 8] :=
  C10_cache_entry_matches_body [".otf"] ⟨"/font.otf", true, false⟩
    ⟨none, none, none, Body.original 1⟩ [] (fun _ => Except.ok [9, 8]) [9, 8]
    (by decide) (by decide) (by decide) (by decide) (by decide) rfl

end RocketAsyncCompression
